import Mathlib

/-!
Shallow embedding of the physics/collision core of `src/jumper.c`
(the "obby" game): grid lookups, the cube/wedge/goal shape resolvers,
the character controller (`physics_step`), and the fixed-step driver
with its accumulator loop and render interpolation.

C doubles are embedded as real numbers; machine state that the C code
mutates in place is passed explicitly.  Each definition mirrors the
source function of the same name.
-/

noncomputable section

namespace Jumpi

open Classical

/-! ## Tile types and tuning constants (jumper.c lines 19-86) -/

def TILE_EMPTY : ℕ := 0
def TILE_CUBE : ℕ := 1
def TILE_WEDGE : ℕ := 2
def TILE_END : ℕ := 3

def CELL_SIZE : ℝ := 1.0
def PLAYER_RADIUS : ℝ := 0.28
def PLAYER_HEIGHT : ℝ := 1.8

def GRAVITY : ℝ := 20.0
def WALK_ACCEL : ℝ := 100.0
def AIR_ACCEL : ℝ := 60.0
def MAX_WALK_SPEED : ℝ := 7.0
def JUMP_VELOCITY : ℝ := 8.0
def FRICTION : ℝ := 6.0
def BUNNY_HOP_TIME : ℝ := 0.1

/-! ## Data model -/

/-- The `Player` struct: position, velocity, look angles, grounded flag and
the bunny-hop timer. -/
structure Player where
  px : ℝ
  py : ℝ
  pz : ℝ
  vx : ℝ
  vy : ℝ
  vz : ℝ
  yaw : ℝ
  pitch : ℝ
  grounded : Bool
  time_since_grounded : ℝ

/-- The `Input` struct fields the physics step reads (mouse deltas are
consumed outside the step). -/
structure Input where
  move_fwd : ℝ
  move_strafe : ℝ
  jump : Bool
  sprint : Bool

/-- The global map state `map_w`, `map_h`, `map_cells`, `map_rots`;
`cells`/`rots` are read as `map_cells[z * map_w + x]`, so both take the
row (z) first and the column (x) second. -/
structure GameMap where
  map_w : ℤ
  map_h : ℤ
  cells : ℤ → ℤ → ℕ
  rots : ℤ → ℤ → ℕ

/-! ## Helpers (jumper.c lines 92-99) -/

def clampd (v a b : ℝ) : ℝ := if v < a then a else if v > b then b else v

def lerp (a b t : ℝ) : ℝ := a + (b - a) * t

def approach (cur target maxDelta : ℝ) : ℝ :=
  if target - cur > maxDelta then cur + maxDelta
  else if target - cur < -maxDelta then cur - maxDelta
  else target

/-! ## Grid lookups (jumper.c lines 465-469) -/

def in_map (m : GameMap) (x z : ℤ) : Bool :=
  decide (x ≥ 0) && decide (z ≥ 0) && decide (x < m.map_w) && decide (z < m.map_h)

def tile_at (m : GameMap) (x z : ℤ) : ℕ :=
  if in_map m x z then m.cells z x else TILE_CUBE

/-! ## Cube resolver (jumper.c lines 471-504) -/

def cellMinX (cx : ℤ) : ℝ := cx * CELL_SIZE
def cellMaxX (cx : ℤ) : ℝ := ((cx : ℝ) + 1) * CELL_SIZE
def cellMinZ (cz : ℤ) : ℝ := cz * CELL_SIZE
def cellMaxZ (cz : ℤ) : ℝ := ((cz : ℝ) + 1) * CELL_SIZE

def pminX (p : Player) : ℝ := p.px - PLAYER_RADIUS
def pmaxX (p : Player) : ℝ := p.px + PLAYER_RADIUS
def pminY (p : Player) : ℝ := p.py
def pmaxY (p : Player) : ℝ := p.py + PLAYER_HEIGHT
def pminZ (p : Player) : ℝ := p.pz - PLAYER_RADIUS
def pmaxZ (p : Player) : ℝ := p.pz + PLAYER_RADIUS

/-- The early-return test of `resolve_cube`: the player AABB misses the
unit cube on some axis. -/
def cubeSeparated (p : Player) (cx cz : ℤ) : Prop :=
  pmaxX p ≤ cellMinX cx ∨ pminX p ≥ cellMaxX cx ∨
  pmaxY p ≤ 0 ∨ pminY p ≥ 1 ∨
  pmaxZ p ≤ cellMinZ cz ∨ pminZ p ≥ cellMaxZ cz

def penX (p : Player) (cx : ℤ) : ℝ :=
  min (pmaxX p - cellMinX cx) (cellMaxX cx - pminX p)
def penY (p : Player) : ℝ :=
  min (pmaxY p - 0) (1 - pminY p)
def penZ (p : Player) (cz : ℤ) : ℝ :=
  min (pmaxZ p - cellMinZ cz) (cellMaxZ cz - pminZ p)

def resolve_cube (p : Player) (cx cz : ℤ) : Player :=
  if cubeSeparated p cx cz then p
  else if penY p ≤ penX p cx ∧ penY p ≤ penZ p cz then
    if (pminY p + pmaxY p) * 0.5 > ((0 : ℝ) + 1) * 0.5 then
      { p with py := 1 + 0.001, vy := 0, grounded := true }
    else
      { p with py := 0 - PLAYER_HEIGHT - 0.001,
               vy := if p.vy > 0 then 0 else p.vy }
  else if penX p cx ≤ penZ p cz then
    if p.px < (cellMinX cx + cellMaxX cx) * 0.5 then
      { p with px := p.px - penX p cx, vx := p.vx * 0.3 }
    else
      { p with px := p.px + penX p cx, vx := p.vx * 0.3 }
  else
    if p.pz < (cellMinZ cz + cellMaxZ cz) * 0.5 then
      { p with pz := p.pz - penZ p cz, vz := p.vz * 0.3 }
    else
      { p with pz := p.pz + penZ p cz, vz := p.vz * 0.3 }

/-! ## Wedge resolver (jumper.c lines 506-525) -/

def wedge_height_at_local (lx lz : ℝ) (rot : ℕ) : ℝ :=
  if rot = 0 then clampd lx 0 1
  else if rot = 1 then 1 - clampd lx 0 1
  else if rot = 2 then clampd lz 0 1
  else 1 - clampd lz 0 1

def resolve_wedge (p : Player) (cx cz : ℤ) (rot : ℕ) : Player :=
  if p.px - cx < -PLAYER_RADIUS ∨ p.px - cx > 1 + PLAYER_RADIUS ∨
     p.pz - cz < -PLAYER_RADIUS ∨ p.pz - cz > 1 + PLAYER_RADIUS then p
  else if p.py ≤ wedge_height_at_local (p.px - cx) (p.pz - cz) rot + 0.001 then
    { p with py := wedge_height_at_local (p.px - cx) (p.pz - cz) rot + 0.001,
             vy := if p.vy < 0 then 0 else p.vy,
             grounded := true }
  else p

/-! ## Goal cell and the 3x3 neighborhood (jumper.c lines 527-548) -/

/-- The footprint test of the `TILE_END` branch of `resolve_collisions`. -/
def goalOverlap (p : Player) (mx mz : ℤ) : Prop :=
  p.px + PLAYER_RADIUS ≥ mx ∧ p.px - PLAYER_RADIUS ≤ (mx : ℝ) + 1 ∧
  p.pz + PLAYER_RADIUS ≥ mz ∧ p.pz - PLAYER_RADIUS ≤ (mz : ℝ) + 1

/-- One iteration of the 3x3 loop body of `resolve_collisions`: the state is
the player plus the `level_complete` flag. -/
def resolve_cell (m : GameMap) (s : Player × Bool) (mx mz : ℤ) : Player × Bool :=
  if in_map m mx mz then
    if tile_at m mx mz = TILE_CUBE then (resolve_cube s.1 mx mz, s.2)
    else if tile_at m mx mz = TILE_WEDGE then
      (resolve_wedge s.1 mx mz (m.rots mz mx), s.2)
    else if tile_at m mx mz = TILE_END then
      (if goalOverlap s.1 mx mz then (s.1, true) else s)
    else s
  else s

/-- The loop order: `oz` (rows) outer, `ox` (columns) inner, each -1..1;
pairs are `(oz, ox)`. -/
def neighborOffsets : List (ℤ × ℤ) :=
  [(-1,-1),(-1,0),(-1,1),(0,-1),(0,0),(0,1),(1,-1),(1,0),(1,1)]

/-- The 3x3 neighborhood pass of `resolve_collisions` (before the floor
clamp); the center cell is fixed from the incoming position. -/
def resolve_cells (m : GameMap) (p : Player) (lc : Bool) : Player × Bool :=
  neighborOffsets.foldl
    (fun s o => resolve_cell m s (⌊p.px⌋ + o.2) (⌊p.pz⌋ + o.1)) (p, lc)

def resolve_collisions (m : GameMap) (p : Player) (lc : Bool) : Player × Bool :=
  let s := resolve_cells m p lc
  if s.1.py < 0 then ({ s.1 with py := 0, vy := 0, grounded := true }, s.2)
  else s

/-! ## Character controller (jumper.c lines 551-605) -/

/-- The value `time_since_grounded` holds when the jump condition of
`physics_step` is evaluated: reset to 0 while grounded, else accumulated
by `dt` (jumper.c lines 587-591). -/
def tsg_next (p : Player) (dt : ℝ) : ℝ :=
  if p.grounded then 0 else p.time_since_grounded + dt

/-- The jump condition of `physics_step` (jumper.c line 594), evaluated on
the already-updated `time_since_grounded`. -/
def jump_ok (p : Player) (inp : Input) (dt : ℝ) : Prop :=
  (p.grounded = true ∨ tsg_next p dt < BUNNY_HOP_TIME) ∧ inp.jump = true

/-- The body of `physics_step` up to and including position integration
(jumper.c lines 552-602); `physics_step` is this followed by
`resolve_collisions`. -/
def physics_pre (p : Player) (inp : Input) (dt : ℝ) : Player :=
  let forward_x := Real.sin p.yaw
  let forward_z := Real.cos p.yaw
  let right_x := forward_z
  let right_z := -forward_x
  let in_len := Real.sqrt (inp.move_fwd * inp.move_fwd + inp.move_strafe * inp.move_strafe)
  let raw_fwd := if in_len > 1 then inp.move_fwd / in_len else inp.move_fwd
  let raw_str := if in_len > 1 then inp.move_strafe / in_len else inp.move_strafe
  let wish_x0 := forward_x * raw_fwd + right_x * raw_str
  let wish_z0 := forward_z * raw_fwd + right_z * raw_str
  let wish_len := Real.sqrt (wish_x0 * wish_x0 + wish_z0 * wish_z0)
  let wish_x := if wish_len > 1e-6 then wish_x0 / wish_len else wish_x0
  let wish_z := if wish_len > 1e-6 then wish_z0 / wish_len else wish_z0
  let accel := if p.grounded then WALK_ACCEL else AIR_ACCEL
  let target_speed :=
    if p.grounded then MAX_WALK_SPEED * (if inp.sprint then 1.5 else 1.0)
    else MAX_WALK_SPEED
  let maxdv := accel * dt
  let vx1 := approach p.vx (wish_x * target_speed) maxdv
  let vz1 := approach p.vz (wish_z * target_speed) maxdv
  let vx2 := if p.grounded = true ∧ wish_len < 1e-3 then approach vx1 0 (FRICTION * dt) else vx1
  let vz2 := if p.grounded = true ∧ wish_len < 1e-3 then approach vz1 0 (FRICTION * dt) else vz1
  let vy1 := p.vy - GRAVITY * dt
  let vy2 := if jump_ok p inp dt then JUMP_VELOCITY else vy1
  let grounded2 := if jump_ok p inp dt then false else p.grounded
  let tsg2 := if jump_ok p inp dt then BUNNY_HOP_TIME else tsg_next p dt
  { p with
    px := p.px + vx2 * dt,
    py := p.py + vy2 * dt,
    pz := p.pz + vz2 * dt,
    vx := vx2, vy := vy2, vz := vz2,
    grounded := grounded2,
    time_since_grounded := tsg2 }

def physics_step (m : GameMap) (p : Player) (inp : Input) (dt : ℝ) (lc : Bool) :
    Player × Bool :=
  resolve_collisions m (physics_pre p inp dt) lc

/-! ## Fixed-step driver (jumper.c lines 681-868) -/

def PHYS_DT : ℝ := 1.0 / 120.0

/-- One consumed `PHYS_DT` of the driver loop: `substeps = 2` calls of
`physics_step` with `PHYS_DT / substeps` (jumper.c lines 853-856). -/
def fixedUpdate (m : GameMap) (inp : Input) (dt : ℝ) (s : Player × Bool) :
    Player × Bool :=
  let s1 := physics_step m s.1 inp (dt / 2) s.2
  physics_step m s1.1 inp (dt / 2) s1.2

/-- Runs `k` fixed updates starting at global step index `i0`, feeding each
step the intent of its index. -/
def runSteps (m : GameMap) (ints : ℕ → Input) (dt : ℝ) :
    ℕ → ℕ → Player × Bool → Player × Bool
  | _, 0, s => s
  | i0, k + 1, s => runSteps m ints dt (i0 + 1) k (fixedUpdate m (ints i0) dt s)

/-- The accumulator drain `while (accumulator >= PHYS_DT)` of the driver,
with explicit fuel; returns the remaining accumulator and the number of
loop iterations taken. -/
def drainLoop : ℕ → ℝ → ℝ → ℝ × ℕ
  | 0, acc, _ => (acc, 0)
  | n + 1, acc, dt =>
    if acc ≥ dt then
      ((drainLoop n (acc - dt) dt).1, (drainLoop n (acc - dt) dt).2 + 1)
    else (acc, 0)

/-- One render frame of the driver: clamp the frame delta to `[0, 0.25]`,
add it to the accumulator, consume whole fixed steps (the loop runs
`⌊acc/dt⌋` times for `dt > 0`, see `drainLoop_eq_floor`), and keep the
global step index. -/
def driveFrame (m : GameMap) (ints : ℕ → Input) (dt : ℝ)
    (st : ℝ × ℕ × (Player × Bool)) (d : ℝ) : ℝ × ℕ × (Player × Bool) :=
  let acc := st.1 + clampd d 0 0.25
  let k := ⌊acc / dt⌋₊
  (acc - dt * k, st.2.1 + k, runSteps m ints dt st.2.1 k st.2.2)

/-- A whole run of the driver over a list of real-time frame deltas. -/
def driveRun (m : GameMap) (ints : ℕ → Input) (dt : ℝ) (deltas : List ℝ)
    (s0 : Player × Bool) : ℝ × ℕ × (Player × Bool) :=
  deltas.foldl (driveFrame m ints dt) (0, 0, s0)

/-- The state the renderer reads (jumper.c lines 859-868):
`time_since_grounded` of `render_player` is never assigned, so it is not a
field here. -/
structure RenderState where
  px : ℝ
  py : ℝ
  pz : ℝ
  vx : ℝ
  vy : ℝ
  vz : ℝ
  yaw : ℝ
  pitch : ℝ
  grounded : Bool

/-- The interpolation `prev + (curr - prev) * alpha` on every continuous
field; `grounded` is taken from the current state. -/
def render_interp (prev curr : Player) (alpha : ℝ) : RenderState :=
  { px := prev.px + (curr.px - prev.px) * alpha
    py := prev.py + (curr.py - prev.py) * alpha
    pz := prev.pz + (curr.pz - prev.pz) * alpha
    vx := prev.vx + (curr.vx - prev.vx) * alpha
    vy := prev.vy + (curr.vy - prev.vy) * alpha
    vz := prev.vz + (curr.vz - prev.vz) * alpha
    yaw := prev.yaw + (curr.yaw - prev.yaw) * alpha
    pitch := prev.pitch + (curr.pitch - prev.pitch) * alpha
    grounded := curr.grounded }

/-! ## Specification-side definitions

Definitions written from the spec's words, used to compare the claimed
trigger conditions with the code's. -/

/-- Membership in the player's AABB, as the spec describes it: horizontal
radius `R` around `(px, pz)`, height `H` above the foot `py`. -/
def inAABB (p : Player) (x y z : ℝ) : Prop :=
  p.px - PLAYER_RADIUS ≤ x ∧ x ≤ p.px + PLAYER_RADIUS ∧
  p.py ≤ y ∧ y ≤ p.py + PLAYER_HEIGHT ∧
  p.pz - PLAYER_RADIUS ≤ z ∧ z ≤ p.pz + PLAYER_RADIUS

/-- The wedge cell's solid volume per the spec: inside the unit cell,
below the rotation-dependent height field. -/
def wedgeSolid (cx cz : ℤ) (rot : ℕ) (x y z : ℝ) : Prop :=
  (cx : ℝ) ≤ x ∧ x ≤ (cx : ℝ) + 1 ∧ (cz : ℝ) ≤ z ∧ z ≤ (cz : ℝ) + 1 ∧
  0 ≤ y ∧ y ≤ wedge_height_at_local (x - cx) (z - cz) rot

/-- The spec's claimed trigger for the wedge resolver: the AABB overlaps
the cell's solid volume. -/
def aabbMeetsWedge (p : Player) (cx cz : ℤ) (rot : ℕ) : Prop :=
  ∃ x y z, inAABB p x y z ∧ wedgeSolid cx cz rot x y z

/-- Open (interior) overlap of the player AABB with the unit cube: the
negation of `cubeSeparated`. -/
def cubeOverlap (p : Player) (cx cz : ℤ) : Prop :=
  cellMinX cx < pmaxX p ∧ pminX p < cellMaxX cx ∧
  0 < pmaxY p ∧ pminY p < 1 ∧
  cellMinZ cz < pmaxZ p ∧ pminZ p < cellMaxZ cz

/-- Resolution axes of the minimum-translation-vector heuristic. -/
inductive Axis
  | X
  | Y
  | Z
deriving DecidableEq

/-- The spec's axis selection: least penetration, ties broken Y first,
then X, then Z. -/
def leastAxisYXZ (ax ay az : ℝ) : Axis :=
  if ay ≤ ax ∧ ay ≤ az then Axis.Y else if ax ≤ az then Axis.X else Axis.Z

/-! ## Preservation lemmas shared by the claims -/

lemma resolve_cube_look (p : Player) (cx cz : ℤ) :
    (resolve_cube p cx cz).yaw = p.yaw ∧ (resolve_cube p cx cz).pitch = p.pitch := by
  unfold resolve_cube
  split_ifs <;> exact ⟨rfl, rfl⟩

lemma resolve_wedge_look (p : Player) (cx cz : ℤ) (rot : ℕ) :
    (resolve_wedge p cx cz rot).yaw = p.yaw ∧ (resolve_wedge p cx cz rot).pitch = p.pitch := by
  unfold resolve_wedge
  split_ifs <;> exact ⟨rfl, rfl⟩

lemma resolve_cell_look (m : GameMap) (s : Player × Bool) (mx mz : ℤ) :
    (resolve_cell m s mx mz).1.yaw = s.1.yaw ∧
    (resolve_cell m s mx mz).1.pitch = s.1.pitch := by
  unfold resolve_cell
  split_ifs <;>
    first
      | exact ⟨rfl, rfl⟩
      | exact resolve_cube_look s.1 mx mz
      | exact resolve_wedge_look s.1 mx mz (m.rots mz mx)

lemma foldl_cells_look (m : GameMap) (cx cz : ℤ) :
    ∀ (l : List (ℤ × ℤ)) (s : Player × Bool),
      ((l.foldl (fun s o => resolve_cell m s (cx + o.2) (cz + o.1)) s).1.yaw = s.1.yaw ∧
       (l.foldl (fun s o => resolve_cell m s (cx + o.2) (cz + o.1)) s).1.pitch = s.1.pitch)
  | [], _ => ⟨rfl, rfl⟩
  | o :: t, s => by
    have ht := foldl_cells_look m cx cz t (resolve_cell m s (cx + o.2) (cz + o.1))
    have hc := resolve_cell_look m s (cx + o.2) (cz + o.1)
    simpa only [List.foldl_cons, ht.1, ht.2] using ⟨hc.1, hc.2⟩

lemma resolve_collisions_look (m : GameMap) (p : Player) (lc : Bool) :
    (resolve_collisions m p lc).1.yaw = p.yaw ∧
    (resolve_collisions m p lc).1.pitch = p.pitch := by
  have h := foldl_cells_look m ⌊p.px⌋ ⌊p.pz⌋ neighborOffsets (p, lc)
  unfold resolve_collisions
  simp only [resolve_cells] at h ⊢
  split_ifs <;> exact ⟨h.1, h.2⟩

lemma physics_pre_look (p : Player) (inp : Input) (dt : ℝ) :
    (physics_pre p inp dt).yaw = p.yaw ∧ (physics_pre p inp dt).pitch = p.pitch := by
  unfold physics_pre
  exact ⟨rfl, rfl⟩

lemma resolve_cell_snd (m : GameMap) (s : Player × Bool) (mx mz : ℤ)
    (h : s.2 = true) : (resolve_cell m s mx mz).2 = true := by
  unfold resolve_cell
  split_ifs <;> first | exact h | rfl

lemma foldl_cells_snd (m : GameMap) (cx cz : ℤ) :
    ∀ (l : List (ℤ × ℤ)) (s : Player × Bool), s.2 = true →
      (l.foldl (fun s o => resolve_cell m s (cx + o.2) (cz + o.1)) s).2 = true
  | [], _, h => h
  | o :: t, s, h => by
    have hc := resolve_cell_snd m s (cx + o.2) (cz + o.1) h
    simpa only [List.foldl_cons] using
      foldl_cells_snd m cx cz t (resolve_cell m s (cx + o.2) (cz + o.1)) hc

lemma resolve_collisions_snd (m : GameMap) (p : Player) :
    (resolve_collisions m p true).2 = true := by
  have h := foldl_cells_snd m ⌊p.px⌋ ⌊p.pz⌋ neighborOffsets (p, true) rfl
  unfold resolve_collisions
  simp only [resolve_cells] at h ⊢
  split_ifs <;> exact h

/-! ## C10 -/

/-- C10: `physics_step` never modifies the player's yaw or pitch; for every
input state, intent, `dt` and flag, both orientation fields are exactly
unchanged after the step. -/
theorem physics_step_preserves_look (m : GameMap) (p : Player) (inp : Input)
    (dt : ℝ) (lc : Bool) :
    (physics_step m p inp dt lc).1.yaw = p.yaw ∧
    (physics_step m p inp dt lc).1.pitch = p.pitch := by
  have h1 := resolve_collisions_look m (physics_pre p inp dt) lc
  have h2 := physics_pre_look p inp dt
  exact ⟨h1.1.trans h2.1, h1.2.trans h2.2⟩

/-! ## C9 -/

/-- C9: the level-complete flag is monotone in the physics core: a cell
resolution, a collision pass, or a whole physics step started with the flag
raised leaves it raised. -/
theorem level_complete_monotone (m : GameMap) (p : Player) (inp : Input)
    (dt : ℝ) (q : Player) (mx mz : ℤ) :
    (resolve_cell m (q, true) mx mz).2 = true ∧
    (resolve_collisions m p true).2 = true ∧
    (physics_step m p inp dt true).2 = true :=
  ⟨resolve_cell_snd m (q, true) mx mz rfl,
   resolve_collisions_snd m p,
   resolve_collisions_snd m (physics_pre p inp dt)⟩

/-! ## C6 -/

/-- C6: after every physics step (and after every collision pass)
`py ≥ 0` holds; whenever the final clamp fires because the resolved `py`
dropped below 0, the pass forces `py = 0`, `vy = 0` and `grounded = true`. -/
theorem floor_clamp_spec (m : GameMap) (p : Player) (inp : Input) (dt : ℝ)
    (lc : Bool) :
    0 ≤ (physics_step m p inp dt lc).1.py ∧
    0 ≤ (resolve_collisions m p lc).1.py ∧
    ((resolve_cells m p lc).1.py < 0 →
      (resolve_collisions m p lc).1.py = 0 ∧
      (resolve_collisions m p lc).1.vy = 0 ∧
      (resolve_collisions m p lc).1.grounded = true) := by
  have key : ∀ (q : Player) (b : Bool), 0 ≤ (resolve_collisions m q b).1.py := by
    intro q b
    simp only [resolve_collisions]
    split_ifs with h
    · exact le_refl 0
    · exact le_of_not_lt h
  refine ⟨key (physics_pre p inp dt) lc, key p lc, fun h => ?_⟩
  simp only [resolve_collisions]
  rw [if_pos h]
  exact ⟨rfl, rfl, rfl⟩

/-! ## Bounds of the wedge height field -/

lemma clampd_mem (v a b : ℝ) (hab : a ≤ b) : a ≤ clampd v a b ∧ clampd v a b ≤ b := by
  unfold clampd
  split_ifs with h1 h2 <;> constructor <;> linarith

lemma wedge_height_mem (lx lz : ℝ) (rot : ℕ) :
    0 ≤ wedge_height_at_local lx lz rot ∧ wedge_height_at_local lx lz rot ≤ 1 := by
  have hx := clampd_mem lx 0 1 (by norm_num)
  have hz := clampd_mem lz 0 1 (by norm_num)
  unfold wedge_height_at_local
  split_ifs <;> constructor <;> linarith

/-! ## C5 -/

/-- C5: for a player inside the wedge's radius-inflated footprint whose foot
is at or below `h + epsilon` (with `h` the rotation-dependent height field at
the clamped local coordinates), the wedge resolver snaps the foot to
`h + epsilon`, clamps `vy` to `≥ 0` and grounds the player; and on every
input it never modifies `px`, `pz`, `vx` or `vz`. -/
theorem wedge_support_spec (p : Player) (cx cz : ℤ) (rot : ℕ) :
    ((-PLAYER_RADIUS ≤ p.px - cx ∧ p.px - cx ≤ 1 + PLAYER_RADIUS ∧
      -PLAYER_RADIUS ≤ p.pz - cz ∧ p.pz - cz ≤ 1 + PLAYER_RADIUS ∧
      p.py ≤ wedge_height_at_local (p.px - cx) (p.pz - cz) rot + 0.001) →
      (resolve_wedge p cx cz rot).py =
        wedge_height_at_local (p.px - cx) (p.pz - cz) rot + 0.001 ∧
      (resolve_wedge p cx cz rot).vy = max p.vy 0 ∧
      (resolve_wedge p cx cz rot).grounded = true) ∧
    (resolve_wedge p cx cz rot).px = p.px ∧
    (resolve_wedge p cx cz rot).pz = p.pz ∧
    (resolve_wedge p cx cz rot).vx = p.vx ∧
    (resolve_wedge p cx cz rot).vz = p.vz := by
  constructor
  · rintro ⟨h1, h2, h3, h4, h5⟩
    unfold resolve_wedge
    rw [if_neg (by push_neg; exact ⟨h1, h2, h3, h4⟩), if_pos h5]
    refine ⟨rfl, ?_, rfl⟩
    show (if p.vy < 0 then (0 : ℝ) else p.vy) = max p.vy 0
    split_ifs with hv
    · exact (max_eq_right hv.le).symm
    · exact (max_eq_left (not_lt.mp hv)).symm
  · unfold resolve_wedge
    split_ifs <;> exact ⟨rfl, rfl, rfl, rfl⟩

/-- A player standing just below the top of a rot-0 wedge at cell (0,0). -/
def pWedge : Player :=
  ⟨0.5, 0.3, 0.5, 0, -2, 0, 0, 0, false, 0⟩

theorem wedge_support_spec_witness :
    (resolve_wedge pWedge 0 0 0).py =
      wedge_height_at_local (pWedge.px - (0 : ℤ)) (pWedge.pz - (0 : ℤ)) 0 + 0.001 ∧
    (resolve_wedge pWedge 0 0 0).vy = max pWedge.vy 0 ∧
    (resolve_wedge pWedge 0 0 0).grounded = true :=
  (wedge_support_spec pWedge 0 0 0).1
    (by norm_num [pWedge, PLAYER_RADIUS, wedge_height_at_local, clampd])

/-! ## C2 -/

/-- A player hovering in the epsilon band above the high edge of a rot-0
wedge at cell (0,0): its AABB is strictly above the wedge solid, yet the
resolver still snaps and grounds it. -/
def pEps : Player :=
  ⟨1.1, 1.0005, 0.5, 0, -1, 0, 0, 0, false, 0⟩

/-- C2 counterexample: the AABB of `pEps` is fully outside the wedge's solid
volume, yet the wedge resolver mutates the state, so the resolvers are not
no-ops exactly when the AABB misses the solid volume. -/
theorem wedge_eps_cex : ¬ aabbMeetsWedge pEps 0 0 0 ∧ resolve_wedge pEps 0 0 0 ≠ pEps := by
  constructor
  · rintro ⟨x, y, z, hA, hS⟩
    have h1 : (1.0005 : ℝ) ≤ y := by
      have := hA.2.2.1; simpa [pEps] using this
    have h2 : y ≤ 1 := le_trans hS.2.2.2.2.2 (wedge_height_mem _ _ _).2
    linarith
  · have hpy : (resolve_wedge pEps 0 0 0).py = 1.001 := by
      unfold resolve_wedge
      rw [if_neg (by norm_num [pEps, PLAYER_RADIUS]),
          if_pos (by norm_num [pEps, wedge_height_at_local, clampd])]
      show wedge_height_at_local (pEps.px - ((0 : ℤ) : ℝ)) (pEps.pz - ((0 : ℤ) : ℝ)) 0 + 0.001 = 1.001
      norm_num [pEps, wedge_height_at_local, clampd]
    intro heq
    rw [heq] at hpy
    norm_num [pEps] at hpy

/-- C2 amended: the cube resolver is a no-op whenever the AABB does not
overlap the cube's volume, and the goal cell never mutates the player; the
wedge resolver is a no-op whenever the player center is outside the
radius-inflated footprint or the foot is strictly above `h + epsilon` — its
trigger is this epsilon-inflated support test, not AABB-vs-solid overlap. -/
theorem resolver_noop_amended (p : Player) (cx cz : ℤ) (rot : ℕ) (m : GameMap)
    (s : Player × Bool) (mx mz : ℤ) :
    (¬ cubeOverlap p cx cz → resolve_cube p cx cz = p) ∧
    ((p.px - cx < -PLAYER_RADIUS ∨ p.px - cx > 1 + PLAYER_RADIUS ∨
      p.pz - cz < -PLAYER_RADIUS ∨ p.pz - cz > 1 + PLAYER_RADIUS) →
      resolve_wedge p cx cz rot = p) ∧
    (wedge_height_at_local (p.px - cx) (p.pz - cz) rot + 0.001 < p.py →
      resolve_wedge p cx cz rot = p) ∧
    (tile_at m mx mz = TILE_END → (resolve_cell m s mx mz).1 = s.1) := by
  refine ⟨fun h => ?_, fun h => ?_, fun h => ?_, fun h => ?_⟩
  · by_cases hs : cubeSeparated p cx cz
    · unfold resolve_cube; rw [if_pos hs]
    · exfalso
      apply h
      unfold cubeSeparated at hs
      push_neg at hs
      exact hs
  · unfold resolve_wedge; rw [if_pos h]
  · unfold resolve_wedge
    split_ifs with h1 h2 h3
    · rfl
    · exfalso; linarith
    · exfalso; linarith
    · rfl
  · unfold resolve_cell
    rw [h]
    have h1 : ¬ (TILE_END = TILE_CUBE) := by decide
    have h2 : ¬ (TILE_END = TILE_WEDGE) := by decide
    simp only [h1, h2, if_false, if_pos rfl]
    split_ifs <;> rfl

/-- A player far from cell (0,0), used to exercise the no-op branches. -/
def pFar : Player :=
  ⟨10, 0, 10, 1, 1, 1, 0, 0, false, 0⟩

theorem resolver_noop_amended_witness :
    resolve_cube pFar 0 0 = pFar ∧ resolve_wedge pFar 0 0 0 = pFar :=
  ⟨(resolver_noop_amended pFar 0 0 0
      ⟨0, 0, fun _ _ => 0, fun _ _ => 0⟩ (pFar, false) 0 0).1
      (by norm_num [cubeOverlap, pminX, pmaxX, pminY, pmaxY, pminZ, pmaxZ,
        cellMinX, cellMaxX, cellMinZ, cellMaxZ, PLAYER_RADIUS, PLAYER_HEIGHT,
        CELL_SIZE, pFar]),
   (resolver_noop_amended pFar 0 0 0
      ⟨0, 0, fun _ _ => 0, fun _ _ => 0⟩ (pFar, false) 0 0).2.1
      (by norm_num [pFar, PLAYER_RADIUS])⟩

/-! ## C1 -/

lemma resolve_cell_empty (m : GameMap) (hm : ∀ x z, m.cells z x = TILE_EMPTY)
    (s : Player × Bool) (mx mz : ℤ) : resolve_cell m s mx mz = s := by
  by_cases h : in_map m mx mz
  · simp [resolve_cell, tile_at, h, hm, TILE_EMPTY, TILE_CUBE, TILE_WEDGE, TILE_END]
  · simp [resolve_cell, h]

lemma resolve_cells_empty (m : GameMap) (hm : ∀ x z, m.cells z x = TILE_EMPTY)
    (p : Player) (lc : Bool) : resolve_cells m p lc = (p, lc) := by
  simp [resolve_cells, neighborOffsets, resolve_cell_empty m hm]

/-- A 2x2 map holding only empty tiles. -/
def mapEmpty2 : GameMap :=
  { map_w := 2, map_h := 2, cells := fun _ _ => TILE_EMPTY, rots := fun _ _ => 0 }

/-- A player near the west edge of `mapEmpty2`, whose 3x3 neighborhood
contains the out-of-bounds column `x = -1`. -/
def pEdge : Player :=
  ⟨0.1, 0, 0.5, 0, 0, 0, 0, 0, false, 0⟩

/-- C1 counterexample: the out-of-bounds neighbor `(-1, 0)` of `pEdge` reads
as a solid cube via `tile_at`, and resolving it as a cube would move the
player; yet `resolve_collisions` skips the cell and leaves the state
untouched, so out-of-bounds neighbors are not resolved like in-bounds
cubes. -/
theorem boundary_skip_cex :
    in_map mapEmpty2 (-1) 0 = false ∧
    tile_at mapEmpty2 (-1) 0 = TILE_CUBE ∧
    resolve_collisions mapEmpty2 pEdge false = (pEdge, false) ∧
    resolve_cube pEdge (-1) 0 ≠ pEdge := by
  have hin : in_map mapEmpty2 (-1) 0 = false := by decide
  refine ⟨hin, by simp [tile_at, hin], ?_, ?_⟩
  · have hcells := resolve_cells_empty mapEmpty2 (fun _ _ => rfl) pEdge false
    simp only [resolve_collisions, hcells]
    rw [if_neg (by norm_num [pEdge])]
  · have hpx : (resolve_cube pEdge (-1) 0).px = 0.28 := by
      unfold resolve_cube
      rw [if_neg (by
            norm_num [cubeSeparated, pminX, pmaxX, pminY, pmaxY, pminZ, pmaxZ,
              cellMinX, cellMaxX, cellMinZ, cellMaxZ, PLAYER_RADIUS,
              PLAYER_HEIGHT, CELL_SIZE, pEdge]),
          if_neg (by
            norm_num [penX, penY, penZ, pminX, pmaxX, pminY, pmaxY, pminZ,
              pmaxZ, cellMinX, cellMaxX, cellMinZ, cellMaxZ, PLAYER_RADIUS,
              PLAYER_HEIGHT, CELL_SIZE, pEdge, min_def]),
          if_pos (by
            norm_num [penX, penZ, pminX, pmaxX, pminZ, pmaxZ, cellMinX,
              cellMaxX, cellMinZ, cellMaxZ, PLAYER_RADIUS, CELL_SIZE, pEdge,
              min_def]),
          if_neg (by
            norm_num [cellMinX, cellMaxX, CELL_SIZE, pEdge])]
      show pEdge.px + penX pEdge (-1) = 0.28
      norm_num [penX, pminX, pmaxX, cellMinX, cellMaxX, PLAYER_RADIUS,
        CELL_SIZE, pEdge, min_def]
    intro heq
    rw [heq] at hpx
    norm_num [pEdge] at hpx

/-- C1 amended: an out-of-bounds lookup through `tile_at` does return the
solid-cube tile, but `resolve_collisions` skips out-of-bounds neighbor cells
(the `in_map` guard) before any resolver runs, so the implicit boundary wall
never takes part in collision resolution. -/
theorem boundary_lookup_amended (m : GameMap) (x z : ℤ) (s : Player × Bool) :
    (in_map m x z = false → tile_at m x z = TILE_CUBE) ∧
    (in_map m x z = false → resolve_cell m s x z = s) := by
  constructor
  · intro h
    simp [tile_at, h]
  · intro h
    simp [resolve_cell, h]

theorem boundary_lookup_amended_witness :
    tile_at mapEmpty2 (-1) 0 = TILE_CUBE ∧
    resolve_cell mapEmpty2 (pEdge, false) (-1) 0 = (pEdge, false) :=
  ⟨(boundary_lookup_amended mapEmpty2 (-1) 0 (pEdge, false)).1 (by decide),
   (boundary_lookup_amended mapEmpty2 (-1) 0 (pEdge, false)).2 (by decide)⟩

/-! ## C4 -/

lemma not_separated_of_overlap (p : Player) (cx cz : ℤ) (h : cubeOverlap p cx cz) :
    ¬ cubeSeparated p cx cz := by
  unfold cubeOverlap at h
  unfold cubeSeparated
  push_neg
  exact h

/-- C4: on overlap, the cube resolver resolves along the axis of least
penetration — penetrations being `min(maxA-minB, maxB-minA)` per axis, see
`penX`/`penY`/`penZ` — with ties broken Y first, then X, then Z: the branch
taken is `leastAxisYXZ`, only that axis's position is moved (by the full
penetration on X/Z), and the chosen penetration is no larger than the other
two. -/
theorem cube_mtv_spec (p : Player) (cx cz : ℤ) (h : cubeOverlap p cx cz) :
    (leastAxisYXZ (penX p cx) (penY p) (penZ p cz) = Axis.Y →
      (resolve_cube p cx cz).px = p.px ∧ (resolve_cube p cx cz).pz = p.pz ∧
      (resolve_cube p cx cz).vx = p.vx ∧ (resolve_cube p cx cz).vz = p.vz ∧
      penY p ≤ penX p cx ∧ penY p ≤ penZ p cz) ∧
    (leastAxisYXZ (penX p cx) (penY p) (penZ p cz) = Axis.X →
      (resolve_cube p cx cz).py = p.py ∧ (resolve_cube p cx cz).pz = p.pz ∧
      (resolve_cube p cx cz).vy = p.vy ∧ (resolve_cube p cx cz).vz = p.vz ∧
      penX p cx ≤ penZ p cz ∧ penX p cx < penY p ∧
      ((resolve_cube p cx cz).px = p.px - penX p cx ∨
       (resolve_cube p cx cz).px = p.px + penX p cx)) ∧
    (leastAxisYXZ (penX p cx) (penY p) (penZ p cz) = Axis.Z →
      (resolve_cube p cx cz).px = p.px ∧ (resolve_cube p cx cz).py = p.py ∧
      (resolve_cube p cx cz).vx = p.vx ∧ (resolve_cube p cx cz).vy = p.vy ∧
      penZ p cz < penX p cx ∧ penZ p cz < penY p ∧
      ((resolve_cube p cx cz).pz = p.pz - penZ p cz ∨
       (resolve_cube p cx cz).pz = p.pz + penZ p cz)) := by
  have hsep := not_separated_of_overlap p cx cz h
  unfold leastAxisYXZ resolve_cube
  rw [if_neg hsep]
  by_cases hY : penY p ≤ penX p cx ∧ penY p ≤ penZ p cz
  · rw [if_pos hY, if_pos hY]
    refine ⟨fun _ => ?_, fun hax => absurd hax (by decide), fun hax => absurd hax (by decide)⟩
    split_ifs <;> exact ⟨rfl, rfl, rfl, rfl, hY.1, hY.2⟩
  · rw [if_neg hY, if_neg hY]
    by_cases hX : penX p cx ≤ penZ p cz
    · rw [if_pos hX, if_pos hX]
      have hXY : penX p cx < penY p := by
        rcases not_and_or.mp hY with h1 | h2
        · exact not_le.mp h1
        · exact lt_of_le_of_lt hX (not_le.mp h2)
      refine ⟨fun hax => absurd hax (by decide), fun _ => ?_,
        fun hax => absurd hax (by decide)⟩
      split_ifs
      · exact ⟨rfl, rfl, rfl, rfl, hX, hXY, Or.inl rfl⟩
      · exact ⟨rfl, rfl, rfl, rfl, hX, hXY, Or.inr rfl⟩
    · rw [if_neg hX, if_neg hX]
      have hZX : penZ p cz < penX p cx := not_le.mp hX
      have hZY : penZ p cz < penY p := by
        rcases not_and_or.mp hY with h1 | h2
        · exact lt_trans hZX (not_le.mp h1)
        · exact not_le.mp h2
      refine ⟨fun hax => absurd hax (by decide), fun hax => absurd hax (by decide),
        fun _ => ?_⟩
      split_ifs
      · exact ⟨rfl, rfl, rfl, rfl, hZX, hZY, Or.inl rfl⟩
      · exact ⟨rfl, rfl, rfl, rfl, hZX, hZY, Or.inr rfl⟩

/-- A player standing low inside the cube at cell (0,0), centered, so the X
axis wins the minimum-translation choice via the X-before-Z tie-break. -/
def pMid : Player :=
  ⟨0.5, 0.2, 0.5, 1, 2, 3, 0, 0, false, 0⟩

theorem cube_mtv_spec_witness :
    (resolve_cube pMid 0 0).py = pMid.py ∧ (resolve_cube pMid 0 0).pz = pMid.pz ∧
    (resolve_cube pMid 0 0).vy = pMid.vy ∧ (resolve_cube pMid 0 0).vz = pMid.vz ∧
    penX pMid 0 ≤ penZ pMid 0 ∧ penX pMid 0 < penY pMid ∧
    ((resolve_cube pMid 0 0).px = pMid.px - penX pMid 0 ∨
     (resolve_cube pMid 0 0).px = pMid.px + penX pMid 0) :=
  (cube_mtv_spec pMid 0 0
    (by norm_num [cubeOverlap, pminX, pmaxX, pminY, pmaxY, pminZ, pmaxZ,
      cellMinX, cellMaxX, cellMinZ, cellMaxZ, PLAYER_RADIUS, PLAYER_HEIGHT,
      CELL_SIZE, pMid])).2.1
    (by norm_num [leastAxisYXZ, penX, penY, penZ, pminX, pmaxX, pminY, pmaxY,
      pminZ, pmaxZ, cellMinX, cellMaxX, cellMinZ, cellMaxZ, PLAYER_RADIUS,
      PLAYER_HEIGHT, CELL_SIZE, pMid, min_def])

/-! ## C3 -/

/-- C3: within a physics step a jump request succeeds exactly when the
player is grounded or the (just-updated) `time_since_grounded` is below the
grace window; on success `vy` becomes the fixed jump velocity, `grounded` is
cleared and `time_since_grounded` is set to exactly the window, a sentinel
that blocks any further jump while airborne (for nonnegative `dt`). -/
theorem jump_grace_spec (p : Player) (inp : Input) (dt : ℝ) (hdt : 0 ≤ dt) :
    (jump_ok p inp dt ↔
      inp.jump = true ∧ (p.grounded = true ∨ tsg_next p dt < BUNNY_HOP_TIME)) ∧
    (jump_ok p inp dt →
      (physics_pre p inp dt).vy = JUMP_VELOCITY ∧
      (physics_pre p inp dt).grounded = false ∧
      (physics_pre p inp dt).time_since_grounded = BUNNY_HOP_TIME) ∧
    (p.grounded = false → BUNNY_HOP_TIME ≤ p.time_since_grounded →
      ¬ jump_ok p inp dt) := by
  refine ⟨?_, fun hj => ?_, fun hg htsg => ?_⟩
  · unfold jump_ok
    exact and_comm
  · simp only [physics_pre]
    rw [if_pos hj, if_pos hj, if_pos hj]
    exact ⟨rfl, rfl, rfl⟩
  · rintro ⟨hcond, -⟩
    rcases hcond with h1 | h2
    · rw [hg] at h1
      exact Bool.false_ne_true h1
    · unfold tsg_next at h2
      rw [hg] at h2
      simp only [Bool.false_eq_true, if_false] at h2
      linarith

/-- A grounded player pressing jump. -/
def pGround : Player :=
  ⟨3.5, 0, 3.5, 0, 0, 0, 0, 0, true, 0⟩

/-- An intent holding only the jump button. -/
def inpJump : Input :=
  ⟨0, 0, true, false⟩

theorem jump_grace_spec_witness :
    (jump_ok pGround inpJump 0 ↔
      inpJump.jump = true ∧
        (pGround.grounded = true ∨ tsg_next pGround 0 < BUNNY_HOP_TIME)) ∧
    (jump_ok pGround inpJump 0 →
      (physics_pre pGround inpJump 0).vy = JUMP_VELOCITY ∧
      (physics_pre pGround inpJump 0).grounded = false ∧
      (physics_pre pGround inpJump 0).time_since_grounded = BUNNY_HOP_TIME) ∧
    (pGround.grounded = false → BUNNY_HOP_TIME ≤ pGround.time_since_grounded →
      ¬ jump_ok pGround inpJump 0) :=
  jump_grace_spec pGround inpJump 0 le_rfl

/-! ## C7 -/

/-- The accumulator loop with enough fuel drains exactly
`⌊acc / dt⌋` whole steps and leaves `acc - dt * ⌊acc / dt⌋`. -/
lemma drainLoop_eq_floor (dt : ℝ) (hdt : 0 < dt) :
    ∀ (n : ℕ) (acc : ℝ), ⌊acc / dt⌋₊ ≤ n →
      drainLoop n acc dt = (acc - dt * ⌊acc / dt⌋₊, ⌊acc / dt⌋₊)
  | 0, acc, hn => by
    have h0 : ⌊acc / dt⌋₊ = 0 := Nat.le_zero.mp hn
    simp [drainLoop, h0]
  | n + 1, acc, hn => by
    by_cases hge : acc ≥ dt
    · have h1 : (1 : ℝ) ≤ acc / dt := (one_le_div hdt).mpr hge
      have hpos : 1 ≤ ⌊acc / dt⌋₊ := Nat.le_floor (by exact_mod_cast h1)
      have hfl : ⌊(acc - dt) / dt⌋₊ = ⌊acc / dt⌋₊ - 1 := by
        rw [sub_div, div_self (ne_of_gt hdt),
          show (1 : ℝ) = ((1 : ℕ) : ℝ) by norm_num, Nat.floor_sub_nat]
      have hrec := drainLoop_eq_floor dt hdt n (acc - dt) (by rw [hfl]; omega)
      simp only [drainLoop, if_pos hge, hrec, hfl, Prod.mk.injEq]
      constructor
      · rw [Nat.cast_sub hpos]
        push_cast
        ring
      · omega
    · have h0 : ⌊acc / dt⌋₊ = 0 :=
        Nat.floor_eq_zero.mpr ((div_lt_one hdt).mpr (not_le.mp hge))
      simp [drainLoop, if_neg hge, h0]

/-- C7: after a frame's accumulator update (delta clamped to `[0, 0.25]`)
and a fully drained loop, `alpha = accumulator / fixedStep` lies in `[0, 1)`,
and the interpolated render state at `alpha = 0` equals the previous state
on every continuous field. -/
theorem alpha_interp_spec (acc d dt : ℝ) (prev curr : Player) (n : ℕ)
    (hacc : 0 ≤ acc) (hdt : 0 < dt)
    (hn : ⌊(acc + clampd d 0 0.25) / dt⌋₊ ≤ n) :
    0 ≤ (drainLoop n (acc + clampd d 0 0.25) dt).1 / dt ∧
    (drainLoop n (acc + clampd d 0 0.25) dt).1 / dt < 1 ∧
    (render_interp prev curr 0).px = prev.px ∧
    (render_interp prev curr 0).py = prev.py ∧
    (render_interp prev curr 0).pz = prev.pz ∧
    (render_interp prev curr 0).vx = prev.vx ∧
    (render_interp prev curr 0).vy = prev.vy ∧
    (render_interp prev curr 0).vz = prev.vz ∧
    (render_interp prev curr 0).yaw = prev.yaw ∧
    (render_interp prev curr 0).pitch = prev.pitch := by
  have ha1nn : 0 ≤ acc + clampd d 0 0.25 :=
    add_nonneg hacc (clampd_mem d 0 0.25 (by norm_num)).1
  rw [drainLoop_eq_floor dt hdt n _ hn]
  have hkey : (acc + clampd d 0 0.25 - dt * ⌊(acc + clampd d 0 0.25) / dt⌋₊) / dt =
      (acc + clampd d 0 0.25) / dt - ⌊(acc + clampd d 0 0.25) / dt⌋₊ := by
    rw [sub_div, mul_div_cancel_left₀ _ (ne_of_gt hdt)]
  have hfle : (⌊(acc + clampd d 0 0.25) / dt⌋₊ : ℝ) ≤ (acc + clampd d 0 0.25) / dt :=
    Nat.floor_le (div_nonneg ha1nn hdt.le)
  have hlt : (acc + clampd d 0 0.25) / dt < ⌊(acc + clampd d 0 0.25) / dt⌋₊ + 1 :=
    Nat.lt_floor_add_one _
  refine ⟨?_, ?_, ?_, ?_, ?_, ?_, ?_, ?_, ?_, ?_⟩ <;>
    first
      | (show (0:ℝ) ≤ _; rw [hkey]; linarith)
      | (show _ < (1:ℝ); rw [hkey]; linarith)
      | simp [render_interp]

theorem alpha_interp_spec_witness :
    0 ≤ (drainLoop 0 ((0 : ℝ) + clampd 0 0 0.25) 1).1 / 1 ∧
    (drainLoop 0 ((0 : ℝ) + clampd 0 0 0.25) 1).1 / 1 < 1 ∧
    (render_interp pGround pFar 0).px = pGround.px ∧
    (render_interp pGround pFar 0).py = pGround.py ∧
    (render_interp pGround pFar 0).pz = pGround.pz ∧
    (render_interp pGround pFar 0).vx = pGround.vx ∧
    (render_interp pGround pFar 0).vy = pGround.vy ∧
    (render_interp pGround pFar 0).vz = pGround.vz ∧
    (render_interp pGround pFar 0).yaw = pGround.yaw ∧
    (render_interp pGround pFar 0).pitch = pGround.pitch :=
  alpha_interp_spec 0 0 1 pGround pFar 0 le_rfl one_pos
    (by norm_num [clampd])

/-! ## C8 -/

lemma runSteps_succ (m : GameMap) (ints : ℕ → Input) (dt : ℝ) :
    ∀ (k i : ℕ) (s : Player × Bool),
      runSteps m ints dt i (k + 1) s =
        fixedUpdate m (ints (i + k)) dt (runSteps m ints dt i k s)
  | 0, i, s => by simp [runSteps]
  | k + 1, i, s => by
    have ih := runSteps_succ m ints dt k (i + 1) (fixedUpdate m (ints i) dt s)
    calc runSteps m ints dt i (k + 2) s
        = runSteps m ints dt (i + 1) (k + 1) (fixedUpdate m (ints i) dt s) := rfl
      _ = fixedUpdate m (ints (i + 1 + k)) dt
            (runSteps m ints dt (i + 1) k (fixedUpdate m (ints i) dt s)) := ih
      _ = fixedUpdate m (ints (i + (k + 1))) dt (runSteps m ints dt i (k + 1) s) := by
            rw [show i + 1 + k = i + (k + 1) by omega]
            rfl

lemma runSteps_add (m : GameMap) (ints : ℕ → Input) (dt : ℝ) :
    ∀ (b a i : ℕ) (s : Player × Bool),
      runSteps m ints dt i (a + b) s =
        runSteps m ints dt (i + a) b (runSteps m ints dt i a s)
  | 0, a, i, s => by simp [runSteps]
  | b + 1, a, i, s => by
    rw [show a + (b + 1) = (a + b) + 1 by omega, runSteps_succ,
      runSteps_add m ints dt b a i s, runSteps_succ,
      show i + (a + b) = i + a + b by omega]

lemma driveRun_state (m : GameMap) (ints : ℕ → Input) (dt : ℝ) (s0 : Player × Bool) :
    ∀ (ds : List ℝ) (st : ℝ × ℕ × (Player × Bool)),
      st.2.2 = runSteps m ints dt 0 st.2.1 s0 →
      (ds.foldl (driveFrame m ints dt) st).2.2 =
        runSteps m ints dt 0 (ds.foldl (driveFrame m ints dt) st).2.1 s0
  | [], _, h => h
  | d :: t, st, h => by
    have hstep : (driveFrame m ints dt st d).2.2 =
        runSteps m ints dt 0 (driveFrame m ints dt st d).2.1 s0 := by
      simp only [driveFrame]
      rw [h, runSteps_add m ints dt _ st.2.1 0 s0, Nat.zero_add]
    simpa only [List.foldl_cons] using
      driveRun_state m ints dt s0 t (driveFrame m ints dt st d) hstep

/-- C8: the driver consumes the accumulator only in whole fixed steps of the
deterministic step function, so the state it holds always equals the pure
iteration of the per-step intent sequence; hence two runs whose real-time
deltas are chunked differently but consume the same number of fixed steps
end in identical states. -/
theorem chunking_independence (m : GameMap) (ints : ℕ → Input) (dt : ℝ)
    (s0 : Player × Bool) (ds1 ds2 : List ℝ)
    (h : (driveRun m ints dt ds1 s0).2.1 = (driveRun m ints dt ds2 s0).2.1) :
    (driveRun m ints dt ds1 s0).2.2 = (driveRun m ints dt ds2 s0).2.2 ∧
    (driveRun m ints dt ds1 s0).2.2 =
      runSteps m ints dt 0 (driveRun m ints dt ds1 s0).2.1 s0 := by
  have h1 : (driveRun m ints dt ds1 s0).2.2 =
      runSteps m ints dt 0 (driveRun m ints dt ds1 s0).2.1 s0 :=
    driveRun_state m ints dt s0 ds1 (0, 0, s0) rfl
  have h2 : (driveRun m ints dt ds2 s0).2.2 =
      runSteps m ints dt 0 (driveRun m ints dt ds2 s0).2.1 s0 :=
    driveRun_state m ints dt s0 ds2 (0, 0, s0) rfl
  refine ⟨?_, h1⟩
  rw [h1, h2, h]

/-- The all-zero intent stream. -/
def intsZero : ℕ → Input := fun _ => ⟨0, 0, false, false⟩

theorem chunking_independence_witness :
    (driveRun mapEmpty2 intsZero 1 [] (pGround, false)).2.2 =
      (driveRun mapEmpty2 intsZero 1 [0] (pGround, false)).2.2 ∧
    (driveRun mapEmpty2 intsZero 1 [] (pGround, false)).2.2 =
      runSteps mapEmpty2 intsZero 1 0
        (driveRun mapEmpty2 intsZero 1 [] (pGround, false)).2.1 (pGround, false) :=
  chunking_independence mapEmpty2 intsZero 1 (pGround, false) [] [0]
    (by norm_num [driveRun, driveFrame, clampd, runSteps])

end Jumpi

end
